import Mathlib

/-!
# Verification of the TestBackend order-placement and pricing core

Shallow embedding of the B2B wholesale-marketplace backend
(routes/cart.js, routes/orders.js, routes/products.js, routes/connections.js,
the salesmen routes, and the mongoose models), with theorems checking the
natural-language specification against the code.

Conventions of the embedding:
* JS numbers used for money/quantities are modelled as `ℚ` (exact rational
  arithmetic); document ids (`ObjectId`) are modelled as `Nat`.
* Mongoose documents become structures; only the fields that the verified
  routes read or write are carried.
* Fallible route handlers become `Except`/`Option`-valued functions; an
  error result models an early `return res.status(4xx)` (or a thrown
  `TypeError` caught by the 500 handler), both of which happen before any
  database write on the modelled paths.
* `$inc` stock updates become pointwise updates of a `List Product` store.
-/

namespace TestBackend

/-! ## Data model (models/Product.js, models/Cart.js, models/Order.js, models/Connection.js) -/

/-- A pricing tier (models/Product.js `priceTierSchema`): `max_quantity` is
`none` for `null`, meaning no upper limit. -/
structure PriceTier where
  min_quantity : ℚ
  max_quantity : Option ℚ
  price_per_unit : ℚ
deriving Repr, DecidableEq

/-- A product document (models/Product.js), restricted to the fields the
verified routes use. -/
structure Product where
  id : Nat
  wholesaler_id : Nat
  category : String
  moq : ℚ
  stock_quantity : ℚ
  pricing_tiers : List PriceTier
  base_price : ℚ
  gst_percentage : ℚ
  is_active : Bool
deriving Repr, DecidableEq

/-- A cart line item (models/Cart.js `cartItemSchema`). -/
structure CartItem where
  product_id : Nat
  quantity : ℚ
  unit_price : ℚ
deriving Repr, DecidableEq

/-- A cart document (models/Cart.js). -/
structure Cart where
  retailer_id : Nat
  items : List CartItem
deriving Repr, DecidableEq

/-- Order status enumeration (models/Order.js `status.enum`). -/
inductive OrderStatus
  | pending
  | confirmed
  | processing
  | shipped
  | delivered
  | cancelled
deriving Repr, DecidableEq

/-- An order line item (models/Order.js `orderItemSchema`), a frozen
snapshot created at placement time. -/
structure OrderItem where
  product_id : Nat
  quantity : ℚ
  unit_price : ℚ
  gst_amount : ℚ
  total_price : ℚ
deriving Repr, DecidableEq

/-- An order document (models/Order.js), restricted to the fields the
verified routes use. -/
structure Order where
  retailer_id : Nat
  wholesaler_id : Nat
  items : List OrderItem
  subtotal : ℚ
  gst_amount : ℚ
  total_amount : ℚ
  status : OrderStatus
deriving Repr, DecidableEq

/-- Connection status enumeration (models/Connection.js `status.enum`). -/
inductive ConnStatus
  | pending
  | approved
  | rejected
deriving Repr, DecidableEq

/-- Who requested a connection (models/Connection.js `requested_by.enum`). -/
inductive Requester
  | retailer
  | wholesaler
  | salesman
deriving Repr, DecidableEq

/-- A connection document (models/Connection.js). -/
structure Connection where
  wholesaler_id : Nat
  retailer_id : Nat
  status : ConnStatus
  requested_by : Requester
  message : String
deriving Repr, DecidableEq

/-- `Product.findById` over the store (first document with the given id). -/
def findProduct (products : List Product) (pid : Nat) : Option Product :=
  products.find? (fun p => decide (p.id = pid))

/-! ## Pricing engine (routes/cart.js lines 70-79 and 156-165,
routes/products.js lines 262-271, salesmen cart routes) -/

/-- One iteration test of the tier loop: `quantity >= tier.min_quantity`
and (`tier.max_quantity === null || quantity <= tier.max_quantity`).
In the source the two tests are nested `if`s, but a tier whose inner test
fails just continues the loop, so the conjunction is the loop condition. -/
def tierMatches (quantity : ℚ) (tier : PriceTier) : Bool :=
  decide (tier.min_quantity ≤ quantity) &&
    (match tier.max_quantity with
     | none => true
     | some mx => decide (quantity ≤ mx))

/-- The tier scan loop: `let unitPrice = product.base_price;
for (const tier of product.pricing_tiers) { ... break; }`. -/
def unitPriceScan (quantity basePrice : ℚ) : List PriceTier → ℚ
  | [] => basePrice
  | tier :: rest =>
      if tierMatches quantity tier then tier.price_per_unit
      else unitPriceScan quantity basePrice rest

/-- `unitPriceFor(product, quantity)` as implemented identically in
routes/cart.js (add and update), routes/products.js calculate-price, and
the salesmen cart routes. -/
def unitPriceFor (product : Product) (quantity : ℚ) : ℚ :=
  unitPriceScan quantity product.base_price product.pricing_tiers

/-- Spec-side formulation of the pricing rule (§4.2): the `price_per_unit`
of the first tier, in stored order, satisfying the range predicate, or
`base_price` if none matches. -/
def unitPriceSpec (product : Product) (quantity : ℚ) : ℚ :=
  match product.pricing_tiers.find? (tierMatches quantity) with
  | some tier => tier.price_per_unit
  | none => product.base_price

/-! ## Cart view (routes/cart.js GET /) -/

/-- The cart view total: each line's total is `quantity * unit_price` and
the cart total is their sum (routes/cart.js lines 24-30, a `map` followed
by a `reduce`). -/
def cartTotal (cart : Cart) : ℚ :=
  (cart.items.map (fun item => item.quantity * item.unit_price)).sum

/-! ## Cart mutation (routes/cart.js POST /add and PUT /update/:product_id) -/

/-- Error outcomes of the cart routes (each a distinct early
`res.status(4xx)` return in the source; `productNotFound` on the update
path models the uncaught `TypeError` on a vanished product, which the 500
handler reports before any write). -/
inductive CartErr
  | productNotFound
  | notAvailable
  | belowMoq
  | aboveStock
  | notInCart
deriving Repr, DecidableEq

/-- The in-place update / push logic shared by the add and update routes:
if a line with this product exists, its quantity and unit price are
overwritten; otherwise a new line is pushed at the end. -/
def upsertItem (items : List CartItem) (pid : Nat) (quantity unitPrice : ℚ) :
    List CartItem :=
  match items with
  | [] => [{ product_id := pid, quantity := quantity, unit_price := unitPrice }]
  | item :: rest =>
      if item.product_id = pid then
        { item with quantity := quantity, unit_price := unitPrice } :: rest
      else item :: upsertItem rest pid quantity unitPrice

/-- routes/cart.js POST /add: validates existence, `is_active`, MOQ and
stock, resolves the unit price through the tier scan, then updates the
existing line or pushes a new one. (The route creates an empty cart when
none exists; the model receives that cart as input.) -/
def addToCart (products : List Product) (cart : Cart) (pid : Nat) (quantity : ℚ) :
    Except CartErr Cart :=
  match findProduct products pid with
  | none => .error .productNotFound
  | some product =>
      if product.is_active = false then .error .notAvailable
      else if quantity < product.moq then .error .belowMoq
      else if product.stock_quantity < quantity then .error .aboveStock
      else
        .ok { cart with
              items := upsertItem cart.items pid quantity (unitPriceFor product quantity) }

/-- routes/cart.js PUT /update/:product_id: requires the line to exist,
validates MOQ and stock (note: no `is_active` check on this path),
recomputes the unit price and overwrites the line. -/
def updateCartItem (products : List Product) (cart : Cart) (pid : Nat) (quantity : ℚ) :
    Except CartErr Cart :=
  if cart.items.all (fun item => decide (item.product_id ≠ pid)) then .error .notInCart
  else
    match findProduct products pid with
    | none => .error .productNotFound
    | some product =>
        if quantity < product.moq then .error .belowMoq
        else if product.stock_quantity < quantity then .error .aboveStock
        else
          .ok { cart with
                items := upsertItem cart.items pid quantity (unitPriceFor product quantity) }

/-! ## Order placement (routes/orders.js POST /place) -/

/-- `populate('items.product_id')`: resolve each cart line's product.
A vanished product makes the handler throw before any write (modelled as
`none`). -/
def resolveItems (products : List Product) : List CartItem → Option (List (CartItem × Product))
  | [] => some []
  | item :: rest =>
      match findProduct products item.product_id, resolveItems products rest with
      | some p, some l => some ((item, p) :: l)
      | _, _ => none

/-- The frozen order line built for a cart line (routes/orders.js lines
113-125): `itemSubtotal = quantity * unit_price`,
`itemGst = itemSubtotal * gst_percentage / 100`,
`itemTotal = itemSubtotal + itemGst`. -/
def mkOrderItem (item : CartItem) (product : Product) : OrderItem :=
  let itemSubtotal := item.quantity * item.unit_price
  let itemGst := itemSubtotal * product.gst_percentage / 100
  { product_id := product.id
    quantity := item.quantity
    unit_price := item.unit_price
    gst_amount := itemGst
    total_price := itemSubtotal + itemGst }

/-- One per-wholesaler partition accumulated by the grouping loop
(routes/orders.js `ordersByWholesaler`). -/
structure WholesalerGroup where
  wholesaler_id : Nat
  items : List OrderItem
  subtotal : ℚ
  gst_amount : ℚ
deriving Repr, DecidableEq

/-- Add one cart line to the partition map: JS object keys preserve
insertion order, so the map is a list of groups in first-occurrence order,
and the line is appended to its wholesaler's group. -/
def insertIntoGroups (groups : List WholesalerGroup) (wid : Nat) (oi : OrderItem)
    (sub gst : ℚ) : List WholesalerGroup :=
  match groups with
  | [] => [{ wholesaler_id := wid, items := [oi], subtotal := sub, gst_amount := gst }]
  | g :: rest =>
      if g.wholesaler_id = wid then
        { g with items := g.items ++ [oi],
                 subtotal := g.subtotal + sub,
                 gst_amount := g.gst_amount + gst } :: rest
      else g :: insertIntoGroups rest wid oi sub gst

/-- One iteration of the grouping loop (routes/orders.js lines 100-129). -/
def groupStep (groups : List WholesalerGroup) (ip : CartItem × Product) :
    List WholesalerGroup :=
  let itemSubtotal := ip.1.quantity * ip.1.unit_price
  let itemGst := itemSubtotal * ip.2.gst_percentage / 100
  insertIntoGroups groups ip.2.wholesaler_id (mkOrderItem ip.1 ip.2) itemSubtotal itemGst

/-- The grouping loop over cart lines (routes/orders.js lines 100-129). -/
def buildGroups (resolved : List (CartItem × Product)) : List WholesalerGroup :=
  resolved.foldl groupStep []

/-- The order document created for one partition (routes/orders.js lines
137-147): `total_amount = subtotal + gst_amount`, status defaults to
`pending`. Fields not touched by the verified claims (order number,
delivery address, notes, payment fields) are omitted. -/
def mkOrder (retailer : Nat) (g : WholesalerGroup) : Order :=
  { retailer_id := retailer
    wholesaler_id := g.wholesaler_id
    items := g.items
    subtotal := g.subtotal
    gst_amount := g.gst_amount
    total_amount := g.subtotal + g.gst_amount
    status := .pending }

/-- `Product.findByIdAndUpdate(pid, { $inc: { stock_quantity: -qty } })`. -/
def decrementStock (products : List Product) (pid : Nat) (qty : ℚ) : List Product :=
  products.map (fun p =>
    if p.id = pid then { p with stock_quantity := p.stock_quantity - qty } else p)

/-- The per-order stock-decrement loop (routes/orders.js lines 152-158). -/
def applyOrderDecrements (products : List Product) (items : List OrderItem) : List Product :=
  items.foldl (fun acc it => decrementStock acc it.product_id it.quantity) products

/-! ### Measures used to state the placement properties -/

/-- Total quantity that the order lines carrying the given product id
contribute (the amount `$inc`-ed away from that product's stock). -/
def qtyTowards (pid : Nat) : List OrderItem → ℚ
  | [] => 0
  | it :: rest => (if it.product_id = pid then it.quantity else 0) + qtyTowards pid rest

/-- `qtyTowards` summed over a batch of orders. -/
def ordersQty (pid : Nat) (orders : List Order) : ℚ :=
  (orders.map (fun o => qtyTowards pid o.items)).sum

/-- Total quantity toward a product id over resolved cart lines. -/
def pairQty (pid : Nat) : List (CartItem × Product) → ℚ
  | [] => 0
  | ip :: rest => (if ip.2.id = pid then ip.1.quantity else 0) + pairQty pid rest

/-- Total quantity toward a product id over raw cart lines. -/
def itemsQty (pid : Nat) : List CartItem → ℚ
  | [] => 0
  | it :: rest => (if it.product_id = pid then it.quantity else 0) + itemsQty pid rest

/-- Sum of partition subtotals. -/
def subSum (groups : List WholesalerGroup) : ℚ :=
  (groups.map (fun g => g.subtotal)).sum

/-- Sum of partition GST amounts. -/
def gstSum (groups : List WholesalerGroup) : ℚ :=
  (groups.map (fun g => g.gst_amount)).sum

/-- `qtyTowards` summed over the partitions. -/
def groupsQty (pid : Nat) (groups : List WholesalerGroup) : ℚ :=
  (groups.map (fun g => qtyTowards pid g.items)).sum

/-- Sum of `quantity * unit_price` over resolved cart lines. -/
def lineSub (resolved : List (CartItem × Product)) : ℚ :=
  (resolved.map (fun ip => ip.1.quantity * ip.1.unit_price)).sum

/-- Sum of per-line GST over resolved cart lines. -/
def lineGst (resolved : List (CartItem × Product)) : ℚ :=
  (resolved.map (fun ip => ip.1.quantity * ip.1.unit_price * ip.2.gst_percentage / 100)).sum

/-- routes/orders.js POST /place: empty-cart guard, partition by
wholesaler, one pending order per partition, stock decrement for every
line, cart cleared. Returns `none` for the empty-cart error and for the
crash on an unresolvable product reference (both happen before any
write). -/
def placeOrder (products : List Product) (cart : Cart) :
    Option (List Order × List Product × Cart) :=
  if cart.items.isEmpty then none
  else
    match resolveItems products cart.items with
    | none => none
    | some resolved =>
        let orders := (buildGroups resolved).map (mkOrder cart.retailer_id)
        let products1 := orders.foldl (fun acc o => applyOrderDecrements acc o.items) products
        some (orders, products1, { cart with items := [] })

/-! ## Order status update and cancellation
(routes/orders.js PUT /:id/status and PUT /:id/cancel) -/

/-- Error outcomes of the status-update route. -/
inductive StatusErr
  | invalidStatus
  | notFound
deriving Repr, DecidableEq

/-- The `validStatuses` whitelist check plus enum parse: the route accepts
exactly the six schema statuses as strings (routes/orders.js line 180). -/
def parseStatus : String → Option OrderStatus
  | "pending" => some .pending
  | "confirmed" => some .confirmed
  | "processing" => some .processing
  | "shipped" => some .shipped
  | "delivered" => some .delivered
  | "cancelled" => some .cancelled
  | _ => none

/-- routes/orders.js PUT /:id/status: rejects a string outside
`validStatuses`; `findOne({_id, wholesaler_id})` fails unless the actor is
the order's wholesaler; otherwise assigns the new status unconditionally.
The product store is passed through untouched: the route performs no stock
update. -/
def updateStatus (order : Order) (actor : Nat) (status : String)
    (products : List Product) : Except StatusErr (Order × List Product) :=
  match parseStatus status with
  | none => .error .invalidStatus
  | some st =>
      if order.wholesaler_id ≠ actor then .error .notFound
      else .ok ({ order with status := st }, products)

/-- Error outcomes of the cancel route. -/
inductive CancelErr
  | notFound
  | notPending
deriving Repr, DecidableEq

/-- The stock-restore loop of the cancel route (routes/orders.js lines
227-232): `$inc: { stock_quantity: item.quantity }` per order line. -/
def restoreStock (products : List Product) (items : List OrderItem) : List Product :=
  items.foldl
    (fun acc it =>
      acc.map (fun p =>
        if p.id = it.product_id then
          { p with stock_quantity := p.stock_quantity + it.quantity }
        else p))
    products

/-- routes/orders.js PUT /:id/cancel: `findOne({_id, retailer_id})` fails
unless the actor is the order's retailer; a non-pending order is rejected
with "Can only cancel pending orders" before any write; otherwise the
status becomes `cancelled` and every line's quantity is restored onto its
product's stock. -/
def cancelOrder (order : Order) (actor : Nat) (products : List Product) :
    Except CancelErr (Order × List Product) :=
  if order.retailer_id ≠ actor then .error .notFound
  else if order.status ≠ .pending then .error .notPending
  else .ok ({ order with status := .cancelled }, restoreStock products order.items)

/-- Driver for the place-then-cancel round trip: cancel each created order
in turn (each one is a separate request to the cancel route). -/
def cancelAll (orders : List Order) (actor : Nat) (products : List Product) :
    Except CancelErr (List Product) :=
  match orders with
  | [] => .ok products
  | o :: rest =>
      match cancelOrder o actor products with
      | .error e => .error e
      | .ok (_, ps) => cancelAll rest actor ps

/-! ## Connection requests (routes/connections.js POST /request) -/

/-- Error outcomes of the connection-request route. -/
inductive ReqErr
  | wholesalerNotFound
  | alreadyConnected
  | alreadyPending
deriving Repr, DecidableEq

/-- `Connection.findOne({ wholesaler_id, retailer_id })`. -/
def findConnection (conns : List Connection) (w r : Nat) : Option Connection :=
  conns.find? (fun c => decide (c.wholesaler_id = w ∧ c.retailer_id = r))

/-- Saving the re-requested document: the first stored connection for the
pair is replaced in place. -/
def replaceFirst (conns : List Connection) (w r : Nat) (c' : Connection) :
    List Connection :=
  match conns with
  | [] => []
  | c :: rest =>
      if c.wholesaler_id = w ∧ c.retailer_id = r then c' :: rest
      else c :: replaceFirst rest w r c'

/-- routes/connections.js POST /request (retailer actor): an existing
`approved` or `pending` connection is a conflict; an existing `rejected`
connection is transitioned back to `pending` with `requested_by` set to
`retailer` and the new message, without creating a record; otherwise a new
pending connection is appended. `wholesalerExists` models the
`Wholesaler.findById` guard. -/
def requestConnection (conns : List Connection) (wholesalerExists : Bool)
    (w retailer : Nat) (message : String) : Except ReqErr (List Connection) :=
  if wholesalerExists = false then .error .wholesalerNotFound
  else
    match findConnection conns w retailer with
    | some c =>
        match c.status with
        | .approved => .error .alreadyConnected
        | .pending => .error .alreadyPending
        | .rejected =>
            .ok (replaceFirst conns w retailer
              { c with status := .pending, message := message, requested_by := .retailer })
    | none =>
        .ok (conns ++ [{ wholesaler_id := w, retailer_id := retailer,
                         status := .pending, requested_by := .retailer,
                         message := message }])

/-- The (wholesaler, retailer) key of each stored connection; the schema's
unique compound index says this list has no duplicates. -/
def pairKeys (conns : List Connection) : List (Nat × Nat) :=
  conns.map (fun c => (c.wholesaler_id, c.retailer_id))

/-! ## Catalog visibility (routes/products.js GET /) -/

/-- `Connection.find({ retailer_id, status: 'approved' })` mapped to
wholesaler ids (routes/products.js lines 62-67). -/
def approvedWholesalers (conns : List Connection) (retailer : Nat) : List Nat :=
  (conns.filter (fun c =>
    decide (c.retailer_id = retailer ∧ c.status = ConnStatus.approved))).map
    (fun c => c.wholesaler_id)

/-- The `wholesaler_id` part of the mongo query object: the retailer
branch sets an `$in` list, and a later `wholesaler_id` query parameter
*overwrites* the whole field (routes/products.js lines 74 and 81-83). -/
inductive WholesalerCond
  | any
  | inList (ids : List Nat)
  | eqId (id : Nat)
deriving Repr, DecidableEq

/-- Whether a product document matches the assembled mongo query. -/
def matchesQuery (cond : WholesalerCond) (category : Option String) (p : Product) : Bool :=
  p.is_active &&
    (match cond with
     | .any => true
     | .inList ids => ids.contains p.wholesaler_id
     | .eqId w => decide (p.wholesaler_id = w)) &&
    (match category with
     | none => true
     | some c => decide (p.category = c))

/-- routes/products.js GET / : for a retailer the query is restricted to
approved wholesalers, with an early empty-list return when there are none;
a `wholesaler_id` query parameter then overwrites that restriction; an
optional `category` parameter filters further. (Requests carrying the
`$text` search parameter, the result sort, and the brand enrichment are
outside the verified claims and are not modelled.) -/
def listProducts (conns : List Connection) (products : List Product)
    (actorIsRetailer : Bool) (userId : Nat)
    (categoryParam : Option String) (wholesalerParam : Option Nat) : List Product :=
  if actorIsRetailer then
    let ids := approvedWholesalers conns userId
    if ids.isEmpty then []
    else
      let cond := match wholesalerParam with
        | none => WholesalerCond.inList ids
        | some w => WholesalerCond.eqId w
      products.filter (matchesQuery cond categoryParam)
  else
    let cond := match wholesalerParam with
      | none => WholesalerCond.any
      | some w => WholesalerCond.eqId w
    products.filter (matchesQuery cond categoryParam)

/-- `Connection.findOne({ wholesaler_id, retailer_id, status: 'approved' })`
as a boolean (salesmen routes). -/
def hasApprovedConnection (conns : List Connection) (w r : Nat) : Bool :=
  conns.any (fun c =>
    decide (c.wholesaler_id = w ∧ c.retailer_id = r ∧ c.status = ConnStatus.approved))

/-! ## Salesman order placement (salesmen routes, POST /place-order/:retailer_id) -/

/-- Error outcomes of the salesman placement route. -/
inductive SPlaceErr
  | noPermission
  | notConnected
  | retailerNotFound
  | emptyCart
  | productMissing
  | insufficientStock
deriving Repr, DecidableEq

/-- The totals loop of the salesman placement route: walks the cart lines
in order and fails on the first line whose quantity exceeds the product's
*current* stock, before any order is created or any stock decremented. -/
def buildSalesmanItems (products : List Product) :
    List CartItem → Except SPlaceErr (List OrderItem × ℚ × ℚ)
  | [] => .ok ([], 0, 0)
  | item :: rest =>
      match findProduct products item.product_id with
      | none => .error .productMissing
      | some p =>
          if p.stock_quantity < item.quantity then .error .insufficientStock
          else
            match buildSalesmanItems products rest with
            | .error e => .error e
            | .ok (tail, sub, gst) =>
                let itemSubtotal := item.quantity * item.unit_price
                let itemGst := itemSubtotal * p.gst_percentage / 100
                .ok (mkOrderItem item p :: tail, itemSubtotal + sub, itemGst + gst)

/-- Salesman placement (salesmen routes POST /place-order/:retailer_id):
permission gate, approved-connection gate, retailer lookup, empty-cart
guard, then the stock-re-validating totals loop; only if every line passes
is a single order created and stock decremented. Every error is returned
before any write. -/
def placeOrderSalesman (conns : List Connection) (products : List Product)
    (canPlaceOrders retailerExists : Bool) (wholesaler retailer : Nat)
    (cartItems : List CartItem) : Except SPlaceErr (Order × List Product) :=
  if canPlaceOrders = false then .error .noPermission
  else if hasApprovedConnection conns wholesaler retailer = false then .error .notConnected
  else if retailerExists = false then .error .retailerNotFound
  else if cartItems.isEmpty then .error .emptyCart
  else
    match buildSalesmanItems products cartItems with
    | .error e => .error e
    | .ok (items, sub, gst) =>
        let order : Order :=
          { retailer_id := retailer, wholesaler_id := wholesaler, items := items,
            subtotal := sub, gst_amount := gst, total_amount := sub + gst,
            status := .pending }
        .ok (order, applyOrderDecrements products items)

theorem unitPriceScan_eq_find (quantity basePrice : ℚ) (tiers : List PriceTier) :
    unitPriceScan quantity basePrice tiers =
      match tiers.find? (tierMatches quantity) with
      | some tier => tier.price_per_unit
      | none => basePrice := by
  induction tiers with
  | nil => simp [unitPriceScan, List.find?]
  | cons tier rest ih =>
      by_cases h : tierMatches quantity tier
      · simp [unitPriceScan, List.find?, h]
      · simp only [Bool.not_eq_true] at h
        simp [unitPriceScan, List.find?, h, ih]

/-! ### Concrete fixtures used to instantiate the theorems -/

/-- A catch-all tier priced at 9. -/
def sampleTier : PriceTier :=
  { min_quantity := 1, max_quantity := none, price_per_unit := 9 }

/-- A GST-free product with stock 100 owned by wholesaler 5. -/
def sampleProduct : Product :=
  { id := 1, wholesaler_id := 5, category := "beverages", moq := 1,
    stock_quantity := 100, pricing_tiers := [sampleTier], base_price := 9,
    gst_percentage := 0, is_active := true }

/-- A cart line for 10 units of `sampleProduct` at the tier price. -/
def sampleItem : CartItem :=
  { product_id := 1, quantity := 10, unit_price := 9 }

/-- Retailer 7's cart holding `sampleItem`. -/
def sampleCart : Cart :=
  { retailer_id := 7, items := [sampleItem] }

/-- The frozen order line placement builds from `sampleItem`. -/
def sampleOrderItem : OrderItem :=
  { product_id := 1, quantity := 10, unit_price := 9, gst_amount := 0, total_price := 90 }

/-- The order placement builds from `sampleCart`. -/
def sampleOrder : Order :=
  { retailer_id := 7, wholesaler_id := 5, items := [sampleOrderItem],
    subtotal := 90, gst_amount := 0, total_amount := 90, status := .pending }

/-- `sampleProduct` after the placement's stock decrement. -/
def sampleProductAfter : Product :=
  { sampleProduct with stock_quantity := 90 }

/-- A variant of `sampleProduct` carrying the default 18% GST. -/
def cxProduct : Product :=
  { id := 1, wholesaler_id := 5, category := "beverages", moq := 1,
    stock_quantity := 100, pricing_tiers := [sampleTier], base_price := 9,
    gst_percentage := 18, is_active := true }

/-- A delivered order of retailer 0 at wholesaler 5 with no lines. -/
def deliveredOrder : Order :=
  { retailer_id := 0, wholesaler_id := 5, items := [], subtotal := 0,
    gst_amount := 0, total_amount := 0, status := .delivered }

/-- An approved connection between wholesaler 1 and retailer 2. -/
def connApproved : Connection :=
  { wholesaler_id := 1, retailer_id := 2, status := .approved,
    requested_by := .retailer, message := "" }

/-- A pending connection between wholesaler 1 and retailer 2. -/
def connPending : Connection :=
  { connApproved with status := .pending }

/-- A rejected connection between wholesaler 1 and retailer 2. -/
def connRejected : Connection :=
  { connApproved with status := .rejected }

/-- A deactivated variant of `sampleProduct`. -/
def inactiveProduct : Product :=
  { sampleProduct with is_active := false }

/-- An approved connection between wholesaler 1 and retailer 7. -/
def c9Conn : Connection :=
  { wholesaler_id := 1, retailer_id := 7, status := .approved,
    requested_by := .retailer, message := "" }

/-- An active product owned by wholesaler 9, who has no connection with
retailer 7. -/
def c9Product : Product :=
  { id := 3, wholesaler_id := 9, category := "beverages", moq := 1,
    stock_quantity := 10, pricing_tiers := [sampleTier], base_price := 9,
    gst_percentage := 0, is_active := true }

/-- An active product owned by the connected wholesaler 1. -/
def c9ProductConnected : Product :=
  { id := 4, wholesaler_id := 1, category := "beverages", moq := 1,
    stock_quantity := 10, pricing_tiers := [sampleTier], base_price := 9,
    gst_percentage := 0, is_active := true }

/-- Retailer 7's empty cart. -/
def emptyCart : Cart :=
  { retailer_id := 7, items := [] }

/-- A product of wholesaler 1 with only 3 units left in stock. -/
def lowStockProduct : Product :=
  { id := 1, wholesaler_id := 1, category := "beverages", moq := 1,
    stock_quantity := 3, pricing_tiers := [sampleTier], base_price := 9,
    gst_percentage := 0, is_active := true }

/-- Retailer 7's cart asking for 5 units of `lowStockProduct`. -/
def overstockCart : Cart :=
  { retailer_id := 7, items := [{ product_id := 1, quantity := 5, unit_price := 9 }] }

/-! ## Stock bookkeeping lemmas -/

theorem qtyTowards_append (pid : Nat) (l1 l2 : List OrderItem) :
    qtyTowards pid (l1 ++ l2) = qtyTowards pid l1 + qtyTowards pid l2 := by
  induction l1 with
  | nil => simp [qtyTowards]
  | cons it rest ih => simp [qtyTowards, ih, add_assoc]

/-- The stock-decrement loop of one order rewrites the store pointwise. -/
theorem applyOrderDecrements_eq_map (items : List OrderItem) (products : List Product) :
    applyOrderDecrements products items
      = products.map (fun p =>
          { p with stock_quantity := p.stock_quantity - qtyTowards p.id items }) := by
  induction items generalizing products with
  | nil =>
      simp [applyOrderDecrements, qtyTowards]
  | cons it rest ih =>
      have h1 : applyOrderDecrements products (it :: rest)
          = applyOrderDecrements (decrementStock products it.product_id it.quantity) rest := rfl
      rw [h1, ih, decrementStock, List.map_map]
      refine List.map_congr_left (fun p _ => ?_)
      by_cases hp : p.id = it.product_id
      · simp [Function.comp, hp, qtyTowards, sub_sub]
      · have hp' : ¬ it.product_id = p.id := fun h => hp h.symm
        simp [Function.comp, hp, hp', qtyTowards]

/-- The stock-restore loop of one cancelled order rewrites the store
pointwise. -/
theorem restoreStock_eq_map (items : List OrderItem) (products : List Product) :
    restoreStock products items
      = products.map (fun p =>
          { p with stock_quantity := p.stock_quantity + qtyTowards p.id items }) := by
  induction items generalizing products with
  | nil =>
      simp [restoreStock, qtyTowards]
  | cons it rest ih =>
      have h1 : restoreStock products (it :: rest)
          = restoreStock
              (products.map (fun p =>
                if p.id = it.product_id then
                  { p with stock_quantity := p.stock_quantity + it.quantity }
                else p))
              rest := rfl
      rw [h1, ih, List.map_map]
      refine List.map_congr_left (fun p _ => ?_)
      by_cases hp : p.id = it.product_id
      · simp [Function.comp, hp, qtyTowards, add_assoc]
      · have hp' : ¬ it.product_id = p.id := fun h => hp h.symm
        simp [Function.comp, hp, hp', qtyTowards]

/-- The whole-batch decrement loop rewrites the store pointwise. -/
theorem batchDecrements_eq_map (orders : List Order) (products : List Product) :
    orders.foldl (fun acc o => applyOrderDecrements acc o.items) products
      = products.map (fun p =>
          { p with stock_quantity := p.stock_quantity - ordersQty p.id orders }) := by
  induction orders generalizing products with
  | nil =>
      simp [ordersQty]
  | cons o rest ih =>
      have h1 : (o :: rest).foldl (fun acc o => applyOrderDecrements acc o.items) products
          = rest.foldl (fun acc o => applyOrderDecrements acc o.items)
              (applyOrderDecrements products o.items) := rfl
      rw [h1, ih, applyOrderDecrements_eq_map, List.map_map]
      refine List.map_congr_left (fun p _ => ?_)
      simp [Function.comp, ordersQty, sub_sub]

/-- The whole-batch restore loop rewrites the store pointwise. -/
theorem batchRestores_eq_map (orders : List Order) (products : List Product) :
    orders.foldl (fun acc o => restoreStock acc o.items) products
      = products.map (fun p =>
          { p with stock_quantity := p.stock_quantity + ordersQty p.id orders }) := by
  induction orders generalizing products with
  | nil =>
      simp [ordersQty]
  | cons o rest ih =>
      have h1 : (o :: rest).foldl (fun acc o => restoreStock acc o.items) products
          = rest.foldl (fun acc o => restoreStock acc o.items)
              (restoreStock products o.items) := rfl
      rw [h1, ih, restoreStock_eq_map, List.map_map]
      refine List.map_congr_left (fun p _ => ?_)
      simp [Function.comp, ordersQty, add_assoc]

/-- Cancelling a batch of pending orders all owned by the acting retailer
succeeds and performs exactly the per-order stock restores. -/
theorem cancelAll_ok (orders : List Order) (actor : Nat) (products : List Product)
    (h : ∀ o ∈ orders, o.status = .pending ∧ o.retailer_id = actor) :
    cancelAll orders actor products
      = .ok (orders.foldl (fun acc o => restoreStock acc o.items) products) := by
  induction orders generalizing products with
  | nil => simp [cancelAll]
  | cons o rest ih =>
      obtain ⟨hst, hret⟩ := h o (List.mem_cons_self o rest)
      have hcancel : cancelOrder o actor products
          = .ok ({ o with status := .cancelled }, restoreStock products o.items) := by
        simp [cancelOrder, hret, hst]
      simp only [cancelAll, hcancel]
      exact ih (restoreStock products o.items) (fun o' ho' => h o' (List.mem_cons_of_mem o ho'))

/-- Unpacking a successful placement into its parts. -/
theorem placeOrder_eq (products : List Product) (cart : Cart) (orders : List Order)
    (products' : List Product) (cart' : Cart)
    (h : placeOrder products cart = some (orders, products', cart')) :
    ∃ resolved, resolveItems products cart.items = some resolved ∧
      orders = (buildGroups resolved).map (mkOrder cart.retailer_id) ∧
      products' = orders.foldl (fun acc o => applyOrderDecrements acc o.items) products ∧
      cart' = { cart with items := [] } := by
  cases hemp : cart.items.isEmpty with
  | true =>
      rw [placeOrder, hemp] at h
      simp at h
  | false =>
      rw [placeOrder, hemp] at h
      simp only [Bool.false_eq_true, if_false] at h
      cases hres : resolveItems products cart.items with
      | none =>
          rw [hres] at h
          simp at h
      | some resolved =>
          rw [hres] at h
          simp only [Option.some.injEq, Prod.mk.injEq] at h
          obtain ⟨ho, hp, hc⟩ := h
          exact ⟨resolved, rfl, ho.symm, by rw [← ho, hp], hc.symm⟩

/-- **C3.** Cancelling a pending order restores each line's quantity onto
its product's stock: placing an order from a cart and then cancelling
every order the placement created succeeds and returns the product store
to exactly its pre-placement state. -/
theorem place_then_cancel_id (products : List Product) (cart : Cart)
    (orders : List Order) (products' : List Product) (cart' : Cart)
    (h : placeOrder products cart = some (orders, products', cart')) :
    cancelAll orders cart.retailer_id products' = .ok products := by
  obtain ⟨resolved, hres, ho, hp, hc⟩ := placeOrder_eq products cart orders products' cart' h
  have hall : ∀ o ∈ orders, o.status = .pending ∧ o.retailer_id = cart.retailer_id := by
    intro o hmem
    rw [ho] at hmem
    obtain ⟨g, hg, rfl⟩ := List.mem_map.mp hmem
    exact ⟨rfl, rfl⟩
  rw [cancelAll_ok orders cart.retailer_id products' hall, hp,
    batchDecrements_eq_map, batchRestores_eq_map, List.map_map]
  refine congrArg Except.ok ?_
  have hmap : products.map
      ((fun p => { p with stock_quantity := p.stock_quantity + ordersQty p.id orders }) ∘
        (fun p => { p with stock_quantity := p.stock_quantity - ordersQty p.id orders }))
      = products.map (fun p => p) :=
    List.map_congr_left (fun p _ => by simp [Function.comp, sub_add_cancel])
  rw [hmap]
  exact List.map_id' products

/-- Witness for C3: a concrete placement followed by cancellation of the
created order, restoring stock 100. -/
theorem place_then_cancel_id_witness :
    placeOrder [sampleProduct] sampleCart
      = some ([sampleOrder], [sampleProductAfter], { retailer_id := 7, items := [] })
    ∧ cancelAll [sampleOrder] 7 [sampleProductAfter] = .ok [sampleProduct] := by
  have h : placeOrder [sampleProduct] sampleCart
      = some ([sampleOrder], [sampleProductAfter], { retailer_id := 7, items := [] }) := by
    norm_num [placeOrder, sampleProduct, sampleCart, sampleItem, sampleTier, sampleOrder,
      sampleOrderItem, sampleProductAfter, resolveItems, findProduct, List.find?,
      buildGroups, groupStep, insertIntoGroups, mkOrderItem, mkOrder,
      applyOrderDecrements, decrementStock]
  exact ⟨h, place_then_cancel_id _ _ _ _ _ h⟩

/-! ## Partition accounting lemmas -/

theorem subSum_insert (groups : List WholesalerGroup) (wid : Nat) (oi : OrderItem)
    (sub gst : ℚ) :
    subSum (insertIntoGroups groups wid oi sub gst) = subSum groups + sub := by
  induction groups with
  | nil => simp [insertIntoGroups, subSum]
  | cons g rest ih =>
      by_cases hw : g.wholesaler_id = wid
      · simp [insertIntoGroups, hw, subSum]
        ring
      · simp [insertIntoGroups, hw, subSum] at ih ⊢
        rw [ih]
        ring

theorem gstSum_insert (groups : List WholesalerGroup) (wid : Nat) (oi : OrderItem)
    (sub gst : ℚ) :
    gstSum (insertIntoGroups groups wid oi sub gst) = gstSum groups + gst := by
  induction groups with
  | nil => simp [insertIntoGroups, gstSum]
  | cons g rest ih =>
      by_cases hw : g.wholesaler_id = wid
      · simp [insertIntoGroups, hw, gstSum]
        ring
      · simp [insertIntoGroups, hw, gstSum] at ih ⊢
        rw [ih]
        ring

theorem groupsQty_insert (pid : Nat) (groups : List WholesalerGroup) (wid : Nat)
    (oi : OrderItem) (sub gst : ℚ) :
    groupsQty pid (insertIntoGroups groups wid oi sub gst)
      = groupsQty pid groups + (if oi.product_id = pid then oi.quantity else 0) := by
  induction groups with
  | nil => simp [insertIntoGroups, groupsQty, qtyTowards]
  | cons g rest ih =>
      by_cases hw : g.wholesaler_id = wid
      · simp [insertIntoGroups, hw, groupsQty, qtyTowards_append, qtyTowards]
        ring
      · simp [insertIntoGroups, hw, groupsQty, qtyTowards] at ih ⊢
        rw [ih]
        ring

theorem buildGroups_foldl_subSum (resolved : List (CartItem × Product))
    (groups : List WholesalerGroup) :
    subSum (resolved.foldl groupStep groups) = subSum groups + lineSub resolved := by
  induction resolved generalizing groups with
  | nil => simp [lineSub]
  | cons ip rest ih =>
      have h1 : (ip :: rest).foldl groupStep groups = rest.foldl groupStep (groupStep groups ip) := rfl
      rw [h1, ih, groupStep, subSum_insert]
      simp [lineSub]
      ring

theorem buildGroups_foldl_gstSum (resolved : List (CartItem × Product))
    (groups : List WholesalerGroup) :
    gstSum (resolved.foldl groupStep groups) = gstSum groups + lineGst resolved := by
  induction resolved generalizing groups with
  | nil => simp [lineGst]
  | cons ip rest ih =>
      have h1 : (ip :: rest).foldl groupStep groups = rest.foldl groupStep (groupStep groups ip) := rfl
      rw [h1, ih, groupStep, gstSum_insert]
      simp [lineGst]
      ring

theorem buildGroups_foldl_qty (pid : Nat) (resolved : List (CartItem × Product))
    (groups : List WholesalerGroup) :
    groupsQty pid (resolved.foldl groupStep groups)
      = groupsQty pid groups + pairQty pid resolved := by
  induction resolved generalizing groups with
  | nil => simp [pairQty]
  | cons ip rest ih =>
      have h1 : (ip :: rest).foldl groupStep groups = rest.foldl groupStep (groupStep groups ip) := rfl
      rw [h1, ih, groupStep, groupsQty_insert]
      have h2 : (mkOrderItem ip.1 ip.2).product_id = ip.2.id := rfl
      have h3 : (mkOrderItem ip.1 ip.2).quantity = ip.1.quantity := rfl
      rw [h2, h3]
      simp [pairQty]
      ring

/-! ## Resolution lemmas -/

theorem resolveItems_fst (products : List Product) (items : List CartItem)
    (resolved : List (CartItem × Product))
    (h : resolveItems products items = some resolved) :
    resolved.map Prod.fst = items := by
  induction items generalizing resolved with
  | nil =>
      simp [resolveItems] at h
      simp [← h]
  | cons item rest ih =>
      rw [resolveItems] at h
      cases hfind : findProduct products item.product_id with
      | none => rw [hfind] at h; cases h
      | some p =>
          rw [hfind] at h
          cases hrest : resolveItems products rest with
          | none => rw [hrest] at h; cases h
          | some l =>
              rw [hrest] at h
              simp only [Option.some.injEq] at h
              subst h
              simp [ih l hrest]

theorem findProduct_some_id (products : List Product) (pid : Nat) (p : Product)
    (h : findProduct products pid = some p) : p.id = pid := by
  have := List.find?_some h
  simpa using this

theorem resolveItems_mem (products : List Product) (items : List CartItem)
    (resolved : List (CartItem × Product))
    (h : resolveItems products items = some resolved) :
    ∀ ip ∈ resolved, findProduct products ip.1.product_id = some ip.2 := by
  induction items generalizing resolved with
  | nil =>
      simp [resolveItems] at h
      subst h
      simp
  | cons item rest ih =>
      rw [resolveItems] at h
      cases hfind : findProduct products item.product_id with
      | none => rw [hfind] at h; cases h
      | some p =>
          rw [hfind] at h
          cases hrest : resolveItems products rest with
          | none => rw [hrest] at h; cases h
          | some l =>
              rw [hrest] at h
              simp only [Option.some.injEq] at h
              subst h
              intro ip hip
              rcases List.mem_cons.mp hip with h1 | h1
              · subst h1; exact hfind
              · exact ih l hrest ip h1

theorem resolveItems_pairQty (pid : Nat) (products : List Product)
    (items : List CartItem) (resolved : List (CartItem × Product))
    (h : resolveItems products items = some resolved) :
    pairQty pid resolved = itemsQty pid items := by
  induction items generalizing resolved with
  | nil =>
      simp [resolveItems] at h
      subst h
      simp [pairQty, itemsQty]
  | cons item rest ih =>
      rw [resolveItems] at h
      cases hfind : findProduct products item.product_id with
      | none => rw [hfind] at h; cases h
      | some p =>
          rw [hfind] at h
          cases hrest : resolveItems products rest with
          | none => rw [hrest] at h; cases h
          | some l =>
              rw [hrest] at h
              simp only [Option.some.injEq] at h
              subst h
              have hid : p.id = item.product_id := findProduct_some_id products _ p hfind
              simp [pairQty, itemsQty, hid, ih l hrest]

theorem resolveItems_isSome (products : List Product) (items : List CartItem)
    (h : ∀ item ∈ items, (findProduct products item.product_id).isSome) :
    ∃ resolved, resolveItems products items = some resolved := by
  induction items with
  | nil => exact ⟨[], rfl⟩
  | cons item rest ih =>
      have h1 := h item (List.mem_cons_self item rest)
      cases hfind : findProduct products item.product_id with
      | none => rw [hfind] at h1; cases h1
      | some p =>
          obtain ⟨l, hl⟩ := ih (fun it hit => h it (List.mem_cons_of_mem item hit))
          exact ⟨(item, p) :: l, by rw [resolveItems, hfind, hl]⟩

/-! ## Quantity-per-product lemmas under key-uniqueness -/

theorem itemsQty_eq_zero (pid : Nat) (items : List CartItem)
    (h : pid ∉ items.map (fun it => it.product_id)) : itemsQty pid items = 0 := by
  induction items with
  | nil => rfl
  | cons item rest ih =>
      simp only [List.map_cons, List.mem_cons, not_or] at h
      have : ¬ item.product_id = pid := fun hc => h.1 hc.symm
      simp [itemsQty, this, ih h.2]

theorem itemsQty_of_nodup (items : List CartItem)
    (hnd : (items.map (fun it => it.product_id)).Nodup)
    (item : CartItem) (hmem : item ∈ items) :
    itemsQty item.product_id items = item.quantity := by
  induction items with
  | nil => cases hmem
  | cons hd rest ih =>
      simp only [List.map_cons, List.nodup_cons] at hnd
      rcases List.mem_cons.mp hmem with h1 | h1
      · subst h1
        simp [itemsQty, itemsQty_eq_zero item.product_id rest hnd.1]
      · have hne : ¬ hd.product_id = item.product_id := by
          intro hc
          exact hnd.1 (hc ▸ List.mem_map_of_mem (fun it => it.product_id) h1)
        simp [itemsQty, hne, ih hnd.2 h1]

/-- Finding a product after a pointwise stock rewrite of the store. -/
theorem findProduct_mapStock (products : List Product) (pid : Nat) (g : Product → ℚ) :
    findProduct (products.map (fun p => { p with stock_quantity := g p })) pid
      = (findProduct products pid).map (fun p => { p with stock_quantity := g p }) := by
  induction products with
  | nil => rfl
  | cons p rest ih =>
      by_cases hp : p.id = pid
      · simp [findProduct, List.find?, hp]
      · simp only [findProduct, List.map_cons, List.find?] at ih ⊢
        simp only [hp, decide_eq_false hp] at ih ⊢
        exact ih

/-- Sums of pointwise added maps split. -/
theorem sum_map_add {α : Type} (l : List α) (f g : α → ℚ) :
    (l.map (fun a => f a + g a)).sum = (l.map f).sum + (l.map g).sum := by
  induction l with
  | nil => simp
  | cons a rest ih => simp [ih]; ring

/-- **C2 (amended).** Placing an order from a non-empty cart with
key-unique lines decrements each involved product's stock by exactly that
product's ordered quantity. The sum of the created orders' *subtotals*
equals the cart's pre-placement total; the sum of their `total_amount`s
equals that cart total *plus* the accumulated GST (not the cart total
itself, as the original claim stated). -/
theorem placeOrder_totals_and_stock (products : List Product) (cart : Cart)
    (orders : List Order) (products' : List Product) (cart' : Cart)
    (hnodup : (cart.items.map (fun it => it.product_id)).Nodup)
    (h : placeOrder products cart = some (orders, products', cart')) :
    (orders.map (fun o => o.subtotal)).sum = cartTotal cart
    ∧ (orders.map (fun o => o.total_amount)).sum
        = cartTotal cart + (orders.map (fun o => o.gst_amount)).sum
    ∧ ∀ item ∈ cart.items, ∀ p, findProduct products item.product_id = some p →
        findProduct products' item.product_id
          = some { p with stock_quantity := p.stock_quantity - item.quantity } := by
  obtain ⟨resolved, hres, ho, hp, hc⟩ := placeOrder_eq products cart orders products' cart' h
  have hfst := resolveItems_fst products cart.items resolved hres
  have hline : lineSub resolved = cartTotal cart := by
    rw [cartTotal, ← hfst, List.map_map]
    rfl
  have hsub : (orders.map (fun o => o.subtotal)).sum = subSum (buildGroups resolved) := by
    rw [ho, List.map_map]
    rfl
  have hgst : (orders.map (fun o => o.gst_amount)).sum = gstSum (buildGroups resolved) := by
    rw [ho, List.map_map]
    rfl
  have hsub2 : subSum (buildGroups resolved) = lineSub resolved := by
    have := buildGroups_foldl_subSum resolved []
    simpa [buildGroups, subSum] using this
  refine ⟨by rw [hsub, hsub2, hline], ?_, ?_⟩
  · have htot : (orders.map (fun o => o.total_amount)).sum
        = subSum (buildGroups resolved) + gstSum (buildGroups resolved) := by
      rw [ho, List.map_map]
      have h2 : ((buildGroups resolved).map
            ((fun o => o.total_amount) ∘ mkOrder cart.retailer_id)).sum
          = ((buildGroups resolved).map (fun g => g.subtotal + g.gst_amount)).sum := rfl
      rw [h2, sum_map_add]
      rfl
    rw [htot, hgst, hsub2, hline]
  · intro item hitem p hfind
    have hstore : products' = products.map
        (fun p => { p with stock_quantity := p.stock_quantity - ordersQty p.id orders }) := by
      rw [hp, batchDecrements_eq_map]
    have hpid : p.id = item.product_id := findProduct_some_id products _ p hfind
    have hoq : ordersQty item.product_id orders = groupsQty item.product_id (buildGroups resolved) := by
      rw [ho, ordersQty, List.map_map]
      rfl
    have hgq : groupsQty item.product_id (buildGroups resolved) = pairQty item.product_id resolved := by
      have := buildGroups_foldl_qty item.product_id resolved []
      simpa [buildGroups, groupsQty] using this
    have hqty : ordersQty item.product_id orders = item.quantity := by
      rw [hoq, hgq, resolveItems_pairQty item.product_id products cart.items resolved hres]
      exact itemsQty_of_nodup cart.items hnodup item hitem
    rw [hstore, findProduct_mapStock, hfind]
    simp only [Option.map_some']
    rw [hpid, hqty]

/-- Counterexample to C2 as stated: with the default 18% GST, the single
created order's `total_amount` is 106.2 while the pre-placement cart total
is 90. -/
theorem placeOrder_total_exceeds_cart_total :
    (placeOrder [cxProduct] sampleCart).map
        (fun r => (r.1.map (fun o => o.total_amount)).sum)
      = some (531 / 5)
    ∧ cartTotal sampleCart = 90
    ∧ (531 / 5 : ℚ) ≠ 90 := by
  refine ⟨?_, by norm_num [cartTotal, sampleCart, sampleItem], by norm_num⟩
  norm_num [placeOrder, cxProduct, sampleCart, sampleItem, sampleTier, resolveItems,
    findProduct, List.find?, buildGroups, groupStep, insertIntoGroups, mkOrderItem,
    mkOrder, applyOrderDecrements, decrementStock]

/-- Witness for C2 (amended) at the GST-free fixture. -/
theorem placeOrder_totals_and_stock_witness :
    (sampleCart.items.map (fun it => it.product_id)).Nodup
    ∧ placeOrder [sampleProduct] sampleCart
        = some ([sampleOrder], [sampleProductAfter], { retailer_id := 7, items := [] })
    ∧ ([sampleOrder].map (fun o => o.subtotal)).sum = cartTotal sampleCart
    ∧ ([sampleOrder].map (fun o => o.total_amount)).sum
        = cartTotal sampleCart + ([sampleOrder].map (fun o => o.gst_amount)).sum
    ∧ ∀ item ∈ sampleCart.items, ∀ p, findProduct [sampleProduct] item.product_id = some p →
        findProduct [sampleProductAfter] item.product_id
          = some { p with stock_quantity := p.stock_quantity - item.quantity } := by
  have hnd : (sampleCart.items.map (fun it => it.product_id)).Nodup := by
    simp [sampleCart, sampleItem]
  have h : placeOrder [sampleProduct] sampleCart
      = some ([sampleOrder], [sampleProductAfter], { retailer_id := 7, items := [] }) := by
    norm_num [placeOrder, sampleProduct, sampleCart, sampleItem, sampleTier, sampleOrder,
      sampleOrderItem, sampleProductAfter, resolveItems, findProduct, List.find?,
      buildGroups, groupStep, insertIntoGroups, mkOrderItem, mkOrder,
      applyOrderDecrements, decrementStock]
  obtain ⟨h1, h2, h3⟩ := placeOrder_totals_and_stock _ _ _ _ _ hnd h
  exact ⟨hnd, h, h1, h2, h3⟩

/-- **C4 (amended).** A wholesaler status update is legal iff the actor is
the order's wholesaler and the new status string is one of the *six*
schema statuses — including `pending` and `cancelled`, so the route
enforces no forward-only ordering and `cancelled` is reachable through it.
The status is assigned unconditionally and the product store is untouched
(no stock side effect). -/
theorem updateStatus_spec (order : Order) (actor : Nat) (status : String)
    (products : List Product) :
    (parseStatus status = none →
      updateStatus order actor status products = .error .invalidStatus)
    ∧ (∀ st, parseStatus status = some st → order.wholesaler_id ≠ actor →
      updateStatus order actor status products = .error .notFound)
    ∧ (∀ st, parseStatus status = some st → order.wholesaler_id = actor →
      updateStatus order actor status products = .ok ({ order with status := st }, products)) := by
  refine ⟨?_, ?_, ?_⟩
  · intro hnone
    rw [updateStatus, hnone]
  · intro st hst hne
    rw [updateStatus, hst]
    simp [hne]
  · intro st hst heq
    rw [updateStatus, hst]
    simp [heq]

/-- Counterexample to C4 as stated: a `delivered` order is moved to
`cancelled` through the wholesaler status-update path. -/
theorem updateStatus_allows_cancelled :
    deliveredOrder.status = .delivered
    ∧ updateStatus deliveredOrder 5 "cancelled" []
        = .ok ({ deliveredOrder with status := .cancelled }, []) :=
  ⟨rfl, rfl⟩

/-- Witness for C4 (amended): each branch exercised at concrete inputs. -/
theorem updateStatus_spec_witness :
    parseStatus "paused" = none
    ∧ updateStatus deliveredOrder 5 "paused" [] = .error .invalidStatus
    ∧ parseStatus "shipped" = some .shipped
    ∧ updateStatus deliveredOrder 4 "shipped" [] = .error .notFound
    ∧ updateStatus deliveredOrder 5 "shipped" []
        = .ok ({ deliveredOrder with status := .shipped }, []) :=
  ⟨rfl,
   (updateStatus_spec deliveredOrder 5 "paused" []).1 rfl,
   rfl,
   (updateStatus_spec deliveredOrder 4 "shipped" []).2.1 .shipped rfl (by decide),
   (updateStatus_spec deliveredOrder 5 "shipped" []).2.2 .shipped rfl rfl⟩

/-- **C7.** A retailer cancel request for an order that is not `pending`
fails with the "only pending orders may be cancelled" error. The route
returns before reaching the status assignment and the stock-restore loop,
so the order and every product's stock are untouched (the model's error
result carries no mutated state). -/
theorem cancelOrder_not_pending (order : Order) (actor : Nat) (products : List Product)
    (hown : order.retailer_id = actor) (hst : order.status ≠ .pending) :
    cancelOrder order actor products = .error .notPending := by
  simp [cancelOrder, hown, hst]

/-- Witness for C7: cancelling the delivered fixture order fails. -/
theorem cancelOrder_not_pending_witness :
    deliveredOrder.retailer_id = 0
    ∧ deliveredOrder.status ≠ .pending
    ∧ cancelOrder deliveredOrder 0 [] = .error .notPending :=
  ⟨rfl, by decide, cancelOrder_not_pending deliveredOrder 0 [] rfl (by decide)⟩

/-! ## Connection uniqueness lemmas -/

theorem pairKeys_replaceFirst (conns : List Connection) (w r : Nat) (c' : Connection)
    (hw : c'.wholesaler_id = w) (hr : c'.retailer_id = r) :
    pairKeys (replaceFirst conns w r c') = pairKeys conns := by
  induction conns with
  | nil => rfl
  | cons c rest ih =>
      by_cases hc : c.wholesaler_id = w ∧ c.retailer_id = r
      · simp [replaceFirst, hc, pairKeys, hw, hr, hc.1, hc.2]
      · simp only [replaceFirst, if_neg hc, pairKeys, List.map_cons] at ih ⊢
        rw [ih]

theorem findConnection_some_keys (conns : List Connection) (w r : Nat) (c : Connection)
    (h : findConnection conns w r = some c) :
    c.wholesaler_id = w ∧ c.retailer_id = r := by
  have := List.find?_some h
  simpa using this

theorem findConnection_none_keys (conns : List Connection) (w r : Nat)
    (h : findConnection conns w r = none) :
    (w, r) ∉ pairKeys conns := by
  intro hmem
  obtain ⟨c, hc, hkey⟩ := List.mem_map.mp hmem
  have hnot := List.find?_eq_none.mp h c hc
  simp only [Prod.mk.injEq] at hkey
  exact hnot (by simpa using And.intro hkey.1 hkey.2)

/-- **C6.** At most one connection per (wholesaler, retailer) pair: a
retailer request against an existing `approved` or `pending` connection
fails with the corresponding conflict error; against a `rejected` one it
transitions that same record back to `pending` with `requested_by` set to
`retailer` — same record count, same key set, no new record; with no
existing record it appends a single new pending one; and key-uniqueness of
the store is preserved by every successful request. -/
theorem requestConnection_spec (conns : List Connection) (w r : Nat) (m : String) :
    (∀ c, findConnection conns w r = some c → c.status = .approved →
      requestConnection conns true w r m = .error .alreadyConnected)
    ∧ (∀ c, findConnection conns w r = some c → c.status = .pending →
      requestConnection conns true w r m = .error .alreadyPending)
    ∧ (∀ c, findConnection conns w r = some c → c.status = .rejected →
      requestConnection conns true w r m
        = .ok (replaceFirst conns w r
            { c with status := .pending, message := m, requested_by := .retailer })
      ∧ pairKeys (replaceFirst conns w r
            { c with status := .pending, message := m, requested_by := .retailer })
          = pairKeys conns
      ∧ (replaceFirst conns w r
            { c with status := .pending, message := m, requested_by := .retailer }).length
          = conns.length)
    ∧ (findConnection conns w r = none →
      requestConnection conns true w r m
        = .ok (conns ++ [{ wholesaler_id := w, retailer_id := r, status := .pending,
                           requested_by := .retailer, message := m }]))
    ∧ (∀ conns', requestConnection conns true w r m = .ok conns' →
      (pairKeys conns).Nodup → (pairKeys conns').Nodup) := by
  refine ⟨?_, ?_, ?_, ?_, ?_⟩
  · intro c hc hst
    rw [requestConnection]
    simp [hc, hst]
  · intro c hc hst
    rw [requestConnection]
    simp [hc, hst]
  · intro c hc hst
    obtain ⟨hw, hr⟩ := findConnection_some_keys conns w r c hc
    have hkeys := pairKeys_replaceFirst conns w r
      { c with status := .pending, message := m, requested_by := .retailer } hw hr
    refine ⟨?_, hkeys, ?_⟩
    · rw [requestConnection]
      simp [hc, hst]
    · have := congrArg List.length hkeys
      simpa [pairKeys] using this
  · intro hnone
    rw [requestConnection]
    simp [hnone]
  · intro conns' hok hnd
    cases hfind : findConnection conns w r with
    | some c =>
        cases hst : c.status with
        | approved =>
            have hval : requestConnection conns true w r m = .error .alreadyConnected := by
              rw [requestConnection]
              simp [hfind, hst]
            rw [hval] at hok
            cases hok
        | pending =>
            have hval : requestConnection conns true w r m = .error .alreadyPending := by
              rw [requestConnection]
              simp [hfind, hst]
            rw [hval] at hok
            cases hok
        | rejected =>
            have hval : requestConnection conns true w r m
                = .ok (replaceFirst conns w r
                    { c with status := .pending, message := m,
                             requested_by := .retailer }) := by
              rw [requestConnection]
              simp [hfind, hst]
            rw [hval] at hok
            simp only [Except.ok.injEq] at hok
            obtain ⟨hw, hr⟩ := findConnection_some_keys conns w r c hfind
            have hkeys := pairKeys_replaceFirst conns w r
              { c with status := ConnStatus.pending, message := m,
                       requested_by := Requester.retailer } hw hr
            rw [← hok, hkeys]
            exact hnd
    | none =>
        have hval : requestConnection conns true w r m
            = .ok (conns ++
                [{ wholesaler_id := w, retailer_id := r, status := .pending,
                   requested_by := .retailer, message := m }]) := by
          rw [requestConnection]
          simp [hfind]
        rw [hval] at hok
        simp only [Except.ok.injEq] at hok
        rw [← hok]
        have hkeys : pairKeys (conns ++
              [{ wholesaler_id := w, retailer_id := r, status := .pending,
                 requested_by := .retailer, message := m }])
            = pairKeys conns ++ [(w, r)] := by
          simp [pairKeys]
        rw [hkeys, List.nodup_append]
        refine ⟨hnd, List.nodup_singleton _, ?_⟩
        intro k hk hk2
        simp only [List.mem_singleton] at hk2
        subst hk2
        exact findConnection_none_keys conns w r hfind hk

/-- Witness for C6: every branch exercised on one-element stores. -/
theorem requestConnection_spec_witness :
    findConnection [connApproved] 1 2 = some connApproved
    ∧ requestConnection [connApproved] true 1 2 "hello" = .error .alreadyConnected
    ∧ requestConnection [connPending] true 1 2 "hello" = .error .alreadyPending
    ∧ requestConnection [connRejected] true 1 2 "hello"
        = .ok (replaceFirst [connRejected] 1 2
            { connRejected with status := .pending, message := "hello",
                                requested_by := .retailer })
    ∧ requestConnection [] true 1 2 "hello"
        = .ok [{ wholesaler_id := 1, retailer_id := 2, status := .pending,
                 requested_by := .retailer, message := "hello" }]
    ∧ (pairKeys
        [{ wholesaler_id := 1, retailer_id := 2, status := ConnStatus.pending,
           requested_by := Requester.retailer, message := "hello" }]).Nodup := by
  refine ⟨rfl,
    (requestConnection_spec [connApproved] 1 2 "hello").1 connApproved rfl rfl,
    (requestConnection_spec [connPending] 1 2 "hello").2.1 connPending rfl rfl,
    ((requestConnection_spec [connRejected] 1 2 "hello").2.2.1 connRejected rfl rfl).1,
    (requestConnection_spec [] 1 2 "hello").2.2.2.1 rfl,
    (requestConnection_spec [] 1 2 "hello").2.2.2.2 _
      ((requestConnection_spec [] 1 2 "hello").2.2.2.1 rfl) (by simp [pairKeys])⟩

/-! ## Cart upsert lemmas -/

theorem upsertItem_of_not_mem (items : List CartItem) (pid : Nat) (q u : ℚ)
    (h : pid ∉ items.map (fun it => it.product_id)) :
    upsertItem items pid q u
      = items ++ [{ product_id := pid, quantity := q, unit_price := u }] := by
  induction items with
  | nil => rfl
  | cons item rest ih =>
      simp only [List.map_cons, List.mem_cons, not_or] at h
      have hne : ¬ item.product_id = pid := fun hc => h.1 hc.symm
      simp [upsertItem, hne, ih h.2]

theorem upsertItem_ids_of_mem (items : List CartItem) (pid : Nat) (q u : ℚ)
    (h : pid ∈ items.map (fun it => it.product_id)) :
    (upsertItem items pid q u).map (fun it => it.product_id)
      = items.map (fun it => it.product_id) := by
  induction items with
  | nil => simp at h
  | cons item rest ih =>
      by_cases hc : item.product_id = pid
      · simp [upsertItem, hc]
      · have h2 : pid ∈ rest.map (fun it => it.product_id) := by
          simp only [List.map_cons, List.mem_cons] at h
          rcases h with h | h
          · exact absurd h.symm hc
          · exact h
        simp [upsertItem, hc, ih h2]

theorem upsertItem_nodup (items : List CartItem) (pid : Nat) (q u : ℚ)
    (hnd : (items.map (fun it => it.product_id)).Nodup) :
    ((upsertItem items pid q u).map (fun it => it.product_id)).Nodup := by
  by_cases hmem : pid ∈ items.map (fun it => it.product_id)
  · rw [upsertItem_ids_of_mem items pid q u hmem]
    exact hnd
  · rw [upsertItem_of_not_mem items pid q u hmem]
    rw [List.map_append, List.nodup_append]
    refine ⟨hnd, by simp, ?_⟩
    intro k hk hk2
    simp only [List.map_cons, List.map_nil, List.mem_singleton] at hk2
    subst hk2
    exact hmem hk

/-- **C8 (amended).** Cart add rejects a missing or inactive product, a
quantity below MOQ, and a quantity above stock, each with a distinct error
kind, and otherwise upserts the line at the tier-scan unit price. Cart
*update* validates MOQ and stock the same way and overwrites the line, but
performs no `is_active` check (contrary to the original claim; see the
counterexample). The upsert appends exactly when the product is absent,
keeps the line count unchanged when it is present, and preserves
key-uniqueness of the cart lines. -/
theorem cart_mutation_spec (products : List Product) (cart : Cart) (pid : Nat) (q : ℚ) :
    (∀ p, findProduct products pid = some p → p.is_active = false →
      addToCart products cart pid q = .error .notAvailable)
    ∧ (∀ p, findProduct products pid = some p → p.is_active = true → q < p.moq →
      addToCart products cart pid q = .error .belowMoq)
    ∧ (∀ p, findProduct products pid = some p → p.is_active = true → p.moq ≤ q →
      p.stock_quantity < q → addToCart products cart pid q = .error .aboveStock)
    ∧ (∀ p, findProduct products pid = some p → p.is_active = true → p.moq ≤ q →
      q ≤ p.stock_quantity →
      addToCart products cart pid q
        = .ok { cart with items := upsertItem cart.items pid q (unitPriceFor p q) })
    ∧ (∀ p, findProduct products pid = some p →
      cart.items.all (fun item => decide (item.product_id ≠ pid)) = false →
      p.moq ≤ q → q ≤ p.stock_quantity →
      updateCartItem products cart pid q
        = .ok { cart with items := upsertItem cart.items pid q (unitPriceFor p q) })
    ∧ (pid ∉ cart.items.map (fun it => it.product_id) →
      ∀ u, upsertItem cart.items pid q u
        = cart.items ++ [{ product_id := pid, quantity := q, unit_price := u }])
    ∧ (pid ∈ cart.items.map (fun it => it.product_id) →
      ∀ u, (upsertItem cart.items pid q u).length = cart.items.length)
    ∧ ((cart.items.map (fun it => it.product_id)).Nodup →
      ∀ u, ((upsertItem cart.items pid q u).map (fun it => it.product_id)).Nodup) := by
  refine ⟨?_, ?_, ?_, ?_, ?_, ?_, ?_, ?_⟩
  · intro p hfind hact
    simp [addToCart, hfind, hact]
  · intro p hfind hact hlt
    simp [addToCart, hfind, hact, hlt]
  · intro p hfind hact hmoq hst
    simp [addToCart, hfind, hact, not_lt.mpr hmoq, hst]
  · intro p hfind hact hmoq hstock
    simp [addToCart, hfind, hact, not_lt.mpr hmoq, not_lt.mpr hstock]
  · intro p hfind hin hmoq hstock
    have hin2 : ∃ x ∈ cart.items, x.product_id = pid := by simpa using hin
    simp [updateCartItem, hfind, hin2, not_lt.mpr hmoq, not_lt.mpr hstock]
  · intro hmem u
    exact upsertItem_of_not_mem cart.items pid q u hmem
  · intro hmem u
    have := congrArg List.length (upsertItem_ids_of_mem cart.items pid q u hmem)
    simpa using this
  · intro hnd u
    exact upsertItem_nodup cart.items pid q u hnd

/-- Counterexample to C8 as stated: updating the quantity of an *inactive*
product already in the cart succeeds — the update path never checks
`is_active`. -/
theorem updateCart_ignores_inactive :
    inactiveProduct.is_active = false
    ∧ updateCartItem [inactiveProduct] sampleCart 1 20
        = .ok { retailer_id := 7,
                items := [{ product_id := 1, quantity := 20, unit_price := 9 }] } := by
  refine ⟨rfl, ?_⟩
  norm_num [updateCartItem, findProduct, List.find?, inactiveProduct, sampleProduct,
    sampleCart, sampleItem, upsertItem, unitPriceFor, unitPriceScan, tierMatches,
    sampleTier, List.all]

/-- Witness for C8 (amended): every branch exercised at concrete inputs. -/
theorem cart_mutation_spec_witness :
    addToCart [inactiveProduct] emptyCart 1 10 = .error .notAvailable
    ∧ addToCart [sampleProduct] emptyCart 1 0 = .error .belowMoq
    ∧ addToCart [sampleProduct] emptyCart 1 200 = .error .aboveStock
    ∧ addToCart [sampleProduct] emptyCart 1 10
        = .ok { emptyCart with
                items := upsertItem emptyCart.items 1 10 (unitPriceFor sampleProduct 10) }
    ∧ updateCartItem [sampleProduct] sampleCart 1 20
        = .ok { sampleCart with
                items := upsertItem sampleCart.items 1 20 (unitPriceFor sampleProduct 20) }
    ∧ upsertItem emptyCart.items 1 10 5
        = emptyCart.items ++ [{ product_id := 1, quantity := 10, unit_price := 5 }]
    ∧ (upsertItem sampleCart.items 1 20 5).length = sampleCart.items.length
    ∧ ((upsertItem sampleCart.items 1 20 5).map (fun it => it.product_id)).Nodup := by
  refine ⟨(cart_mutation_spec [inactiveProduct] emptyCart 1 10).1 inactiveProduct rfl rfl,
    (cart_mutation_spec [sampleProduct] emptyCart 1 0).2.1 sampleProduct rfl rfl
      (by norm_num [sampleProduct]),
    (cart_mutation_spec [sampleProduct] emptyCart 1 200).2.2.1 sampleProduct rfl rfl
      (by norm_num [sampleProduct]) (by norm_num [sampleProduct]),
    (cart_mutation_spec [sampleProduct] emptyCart 1 10).2.2.2.1 sampleProduct rfl rfl
      (by norm_num [sampleProduct]) (by norm_num [sampleProduct]),
    (cart_mutation_spec [sampleProduct] sampleCart 1 20).2.2.2.2.1 sampleProduct rfl
      (by simp [sampleCart, sampleItem])
      (by norm_num [sampleProduct]) (by norm_num [sampleProduct]),
    (cart_mutation_spec [sampleProduct] emptyCart 1 10).2.2.2.2.2.1
      (by simp [emptyCart]) 5,
    (cart_mutation_spec [sampleProduct] sampleCart 1 20).2.2.2.2.2.2.1
      (by simp [sampleCart, sampleItem]) 5,
    (cart_mutation_spec [sampleProduct] sampleCart 1 20).2.2.2.2.2.2.2
      (by simp [sampleCart, sampleItem]) 5⟩

/-! ## Catalog visibility lemmas -/

theorem mem_approvedWholesalers (conns : List Connection) (userId w : Nat) :
    w ∈ approvedWholesalers conns userId
      ↔ hasApprovedConnection conns w userId = true := by
  simp only [approvedWholesalers, hasApprovedConnection, List.mem_map, List.mem_filter,
    List.any_eq_true, decide_eq_true_eq]
  constructor
  · rintro ⟨c, ⟨hmem, hr, hs⟩, hw⟩
    exact ⟨c, hmem, hw, hr, hs⟩
  · rintro ⟨c, hmem, hw, hr, hs⟩
    exact ⟨c, ⟨hmem, hr, hs⟩, hw⟩

/-- **C9 (amended).** For a retailer request that does *not* carry the
`wholesaler_id` query parameter, the listing returns only active products
whose owning wholesaler has an approved connection with the retailer; with
zero approved connections the result is the empty list (not an error) for
any parameters. (A supplied `wholesaler_id` parameter overwrites the
connection-based restriction — see the counterexample.) -/
theorem listProducts_spec (conns : List Connection) (products : List Product)
    (userId : Nat) (categoryParam : Option String) :
    (∀ p ∈ listProducts conns products true userId categoryParam none,
      p.is_active = true ∧ hasApprovedConnection conns p.wholesaler_id userId = true)
    ∧ (approvedWholesalers conns userId = [] →
      ∀ wparam, listProducts conns products true userId categoryParam wparam = []) := by
  constructor
  · intro p hp
    rw [listProducts] at hp
    by_cases hids : (approvedWholesalers conns userId).isEmpty
    · simp [hids] at hp
    · simp only [if_pos rfl, hids, Bool.false_eq_true, if_false] at hp
      obtain ⟨hmem, hmatch⟩ := List.mem_filter.mp hp
      unfold matchesQuery at hmatch
      simp only [Bool.and_eq_true, decide_eq_true_eq] at hmatch
      obtain ⟨⟨hact, hin⟩, hcat⟩ := hmatch
      refine ⟨hact, ?_⟩
      rw [← mem_approvedWholesalers]
      simpa using hin
  · intro hempty wparam
    unfold listProducts
    simp [hempty]

/-- Counterexample to C9 as stated: retailer 7 has an approved connection
only with wholesaler 1, yet listing with the `wholesaler_id = 9` query
parameter returns wholesaler 9's product, whose owner has no connection
with retailer 7. -/
theorem listProducts_override_leaks :
    listProducts [c9Conn] [c9Product] true 7 none (some 9) = [c9Product]
    ∧ hasApprovedConnection [c9Conn] c9Product.wholesaler_id 7 = false :=
  ⟨rfl, rfl⟩

/-- Witness for C9 (amended): the connected wholesaler's product is the
sole listing entry and satisfies the gating; an unconnected retailer gets
the empty list. -/
theorem listProducts_spec_witness :
    c9ProductConnected ∈ listProducts [c9Conn] [c9ProductConnected] true 7 none none
    ∧ (c9ProductConnected.is_active = true
        ∧ hasApprovedConnection [c9Conn] c9ProductConnected.wholesaler_id 7 = true)
    ∧ approvedWholesalers [] 7 = []
    ∧ listProducts [] [c9ProductConnected] true 7 none none = [] := by
  have hmem : c9ProductConnected ∈ listProducts [c9Conn] [c9ProductConnected] true 7 none none := by
    rw [show listProducts [c9Conn] [c9ProductConnected] true 7 none none
        = [c9ProductConnected] from rfl]
    exact List.mem_singleton.mpr rfl
  exact ⟨hmem,
    (listProducts_spec [c9Conn] [c9ProductConnected] 7 none).1 c9ProductConnected hmem,
    rfl,
    (listProducts_spec [] [c9ProductConnected] 7 none).2 rfl none⟩

/-! ## Salesman placement lemmas -/

theorem buildSalesmanItems_insufficient (products : List Product) (items : List CartItem)
    (hres : ∀ item ∈ items, (findProduct products item.product_id).isSome)
    (hbad : ∃ item ∈ items, ∃ p, findProduct products item.product_id = some p ∧
      p.stock_quantity < item.quantity) :
    buildSalesmanItems products items = .error .insufficientStock := by
  induction items with
  | nil =>
      obtain ⟨item, hmem, _⟩ := hbad
      cases hmem
  | cons item rest ih =>
      have h1 := hres item (List.mem_cons_self item rest)
      cases hfind : findProduct products item.product_id with
      | none => rw [hfind] at h1; cases h1
      | some p =>
          by_cases hlt : p.stock_quantity < item.quantity
          · simp [buildSalesmanItems, hfind, hlt]
          · obtain ⟨it2, hmem2, p2, hfind2, hlt2⟩ := hbad
            rcases List.mem_cons.mp hmem2 with heq | hmem2r
            · subst heq
              rw [hfind] at hfind2
              injection hfind2 with e
              subst e
              exact absurd hlt2 hlt
            · have hrec := ih (fun it hit => hres it (List.mem_cons_of_mem item hit))
                ⟨it2, hmem2r, p2, hfind2, hlt2⟩
              simp [buildSalesmanItems, hfind, hlt, hrec]

/-- **C10.** Salesman placement re-validates every cart line against the
product's current stock: if any line exceeds current stock the route
returns the insufficient-stock error before creating the order document
and before any stock decrement (the model's error result carries no new
state). The retailer-direct placement path performs no such re-check and
succeeds on the same overstocked cart. -/
theorem salesman_place_rechecks_stock (conns : List Connection) (products : List Product)
    (retailerExists : Bool) (wholesaler retailer : Nat) (cart : Cart)
    (hconn : hasApprovedConnection conns wholesaler retailer = true)
    (hre : retailerExists = true)
    (hne : cart.items ≠ [])
    (hres : ∀ item ∈ cart.items, (findProduct products item.product_id).isSome)
    (hbad : ∃ item ∈ cart.items, ∃ p, findProduct products item.product_id = some p ∧
      p.stock_quantity < item.quantity) :
    placeOrderSalesman conns products true retailerExists wholesaler retailer cart.items
      = .error .insufficientStock
    ∧ ∃ res, placeOrder products cart = some res := by
  constructor
  · have hbuild := buildSalesmanItems_insufficient products cart.items hres hbad
    rw [placeOrderSalesman]
    simp [hconn, hre, hne, hbuild]
  · obtain ⟨resolved, hresolved⟩ := resolveItems_isSome products cart.items hres
    refine ⟨((buildGroups resolved).map (mkOrder cart.retailer_id),
      ((buildGroups resolved).map (mkOrder cart.retailer_id)).foldl
        (fun acc o => applyOrderDecrements acc o.items) products,
      { cart with items := [] }), ?_⟩
    rw [placeOrder]
    simp [hne, hresolved]

/-- Witness for C10: a cart line for 5 units against stock 3 makes the
salesman route fail with the stock error while the retailer route places
the order anyway. -/
theorem salesman_place_rechecks_stock_witness :
    hasApprovedConnection [c9Conn] 1 7 = true
    ∧ placeOrderSalesman [c9Conn] [lowStockProduct] true true 1 7 overstockCart.items
        = .error .insufficientStock
    ∧ (placeOrder [lowStockProduct] overstockCart).isSome = true := by
  have hconn : hasApprovedConnection [c9Conn] 1 7 = true := rfl
  have hres : ∀ item ∈ overstockCart.items,
      (findProduct [lowStockProduct] item.product_id).isSome := by
    intro item hitem
    simp only [overstockCart, List.mem_singleton] at hitem
    subst hitem
    rfl
  have hbad : ∃ item ∈ overstockCart.items,
      ∃ p, findProduct [lowStockProduct] item.product_id = some p ∧
        p.stock_quantity < item.quantity := by
    refine ⟨{ product_id := 1, quantity := 5, unit_price := 9 },
      by simp [overstockCart], lowStockProduct, rfl, by norm_num [lowStockProduct]⟩
  have t := salesman_place_rechecks_stock [c9Conn] [lowStockProduct] true 1 7
    overstockCart hconn rfl (by simp [overstockCart]) hres hbad
  refine ⟨hconn, t.1, ?_⟩
  obtain ⟨res, hplace⟩ := t.2
  rw [hplace]
  rfl

/-- **C1.** For every product and quantity, the unit-price computation
scans the pricing tiers in stored order and returns the `price_per_unit`
of the first tier with `quantity ≥ min_quantity` and (`max_quantity`
unbounded or `quantity ≤ max_quantity`); if no tier matches it returns
`base_price` (first-match, not best-match). -/
theorem unitPriceFor_first_match (product : Product) (quantity : ℚ) :
    unitPriceFor product quantity = unitPriceSpec product quantity := by
  simpa [unitPriceFor, unitPriceSpec] using
    unitPriceScan_eq_find quantity product.base_price product.pricing_tiers

end TestBackend
